import Mathlib

/-!
Verification development for the skygear-server (ourd) dispatch core.

The only source file available is `main.go`: the startup sequence, the
registration of every native route with its preprocessor chain, and the
logging middleware (`responseLogger`, `logMiddleware`).  The `router`,
`plugin` and `hook` packages of the repository are referenced by `main.go`
but their sources are not available, so their behaviour (dispatch over a
preprocessor chain, duplicate-registration handling, plugin init) is
modelled from the specification, as marked on each such definition.
-/

namespace Skygear

/-- The preprocessors that appear in `main.go` (each value of type
`router.Processor` that `main` constructs and passes to `r.Map` / `r.GET` /
`r.PUT`).  `apiKeyValidaton` is `apiKeyValidatonPreprocessor.Preprocess`
(sic, the source's spelling), `tokenStore` is
`tokenStorePreprocessor.Preprocess`, `authenticator` is
`userAuthenticator.Preprocess`, `conn` is `connPreprocessor.Preprocess`,
`assetStore` is `assetStorePreprocessor.Preprocess`, `hookRegistry` is
`hookRegistryPreprocessor.Preprocess`; the remaining three are the free
functions of the same names. -/
inductive Processor where
  | apiKeyValidaton
  | tokenStore
  | authenticator
  | conn
  | assetStore
  | injectUserIfPresent
  | injectDatabase
  | requireUserForWrite
  | hookRegistry
deriving DecidableEq, Repr

/-- The handlers that `main.go` registers, one constructor per `handler.*`
function used, plus a constructor for a handler contributed by plugin
number `i` under a given action name. -/
inductive Handler where
  | home
  | signup
  | login
  | logout
  | recordFetch
  | recordQuery
  | recordSave
  | recordDelete
  | assetGetURL
  | assetUploadURL
  | deviceRegister
  | subscriptionFetchAll
  | subscriptionFetch
  | subscriptionSave
  | subscriptionDelete
  | relationQuery
  | relationAdd
  | relationRemove
  | userQuery
  | userUpdate
  | pluginHandler (i : Nat) (name : String)
deriving DecidableEq, Repr

/-- HTTP method of a pattern route (`main.go` uses only `r.GET` and
`r.PUT`). -/
inductive HTTPMethod where
  | get
  | put
deriving DecidableEq, Repr

/-- One registered action route: its handler and its ordered preprocessor
chain, exactly as supplied to `r.Map`. -/
structure Route where
  handler : Handler
  preprocessors : List Processor
deriving DecidableEq, Repr

/-- One registered path-pattern route, as supplied to `r.GET` / `r.PUT`. -/
structure PatternRoute where
  method : HTTPMethod
  pattern : String
  handler : Handler
  preprocessors : List Processor
deriving DecidableEq, Repr

/-- Modelled from the spec: the Router owns the mapping from action name
(and from path patterns, for asset routes) to a handler plus its ordered
preprocessor chain.  The `router` package itself is not among the available
sources. -/
structure Router where
  actions : List (String × Route)
  patterns : List PatternRoute
deriving DecidableEq, Repr

def emptyRouter : Router := ⟨[], []⟩

/-- Registration outcome for the spec-modelled registration operations. -/
inductive RegErr where
  | duplicateRegistration
deriving DecidableEq, Repr

/-- Modelled from the spec: `register(action, handler, preprocessors[])
fails with DuplicateRegistration if the action is already bound`; on
success the new binding is appended.  This models `router.Router.Map`,
whose source is not available. -/
def routerMap (r : Router) (action : String) (h : Handler)
    (ps : List Processor) : Except RegErr Router :=
  if (r.actions.any (fun e => e.1 = action)) then
    .error .duplicateRegistration
  else
    .ok { r with actions := r.actions ++ [(action, ⟨h, ps⟩)] }

/-- Modelled from the spec: path-pattern routes are ordered pattern rules
with the same preprocessor-chain semantics; registration appends a rule.
This models `router.Router.GET` / `router.Router.PUT`, whose sources are
not available. -/
def routerPattern (r : Router) (m : HTTPMethod) (pat : String) (h : Handler)
    (ps : List Processor) : Router :=
  { r with patterns := r.patterns ++ [⟨m, pat, h, ps⟩] }

/-- Modelled from the spec: `dispatch(context)` looks up the action.  The
first binding for the action wins (duplicates are rejected at registration,
so at most one exists). -/
def lookupAction (r : Router) (action : String) : Option Route :=
  (r.actions.find? (fun e => e.1 = action)).map (fun e => e.2)

/-- Modelled from the spec: pattern-route lookup, first matching pattern
wins; here keyed by method and pattern text. -/
def lookupPattern (r : Router) (m : HTTPMethod) (pat : String) :
    Option Route :=
  (r.patterns.find? (fun e => e.method = m ∧ e.pattern = pat)).map
    (fun e => ⟨e.handler, e.preprocessors⟩)

/-! ## The preprocessor chains of `main.go`

Each list below transcribes one of the `[]router.Processor` literals (or
inline argument lists) of `main.go`, in source order. -/

/-- `authPreprocessors` (main.go lines 205-209). -/
def authPreprocessors : List Processor :=
  [.apiKeyValidaton, .conn, .tokenStore]

/-- The inline chain of `auth:logout` (main.go lines 212-215). -/
def logoutPreprocessors : List Processor :=
  [.tokenStore, .authenticator]

/-- `recordReadPreprocessors` (main.go lines 222-229). -/
def recordReadPreprocessors : List Processor :=
  [.tokenStore, .authenticator, .conn, .assetStore,
   .injectUserIfPresent, .injectDatabase]

/-- `recordWritePreprocessors` (main.go lines 230-239). -/
def recordWritePreprocessors : List Processor :=
  [.hookRegistry, .tokenStore, .authenticator, .conn, .assetStore,
   .injectUserIfPresent, .injectDatabase, .requireUserForWrite]

/-- `assetGetPreprocessors` (main.go lines 245-248). -/
def assetGetPreprocessors : List Processor :=
  [.conn, .assetStore]

/-- `assetUploadPreprocessors` (main.go lines 249-254). -/
def assetUploadPreprocessors : List Processor :=
  [.tokenStore, .authenticator, .conn, .assetStore]

/-- The inline chain of `device:register` (main.go lines 258-264). -/
def devicePreprocessors : List Processor :=
  [.tokenStore, .authenticator, .conn, .injectUserIfPresent]

/-- `userReadPreprocessors` (main.go lines 277-283). -/
def userReadPreprocessors : List Processor :=
  [.tokenStore, .authenticator, .conn,
   .injectUserIfPresent, .injectDatabase]

/-- `userWritePreprocessors` (main.go lines 284-291). -/
def userWritePreprocessors : List Processor :=
  [.tokenStore, .authenticator, .conn,
   .injectUserIfPresent, .injectDatabase, .requireUserForWrite]

/-- One registration statement of `main.go`: an `r.Map` call or an
`r.GET` / `r.PUT` call. -/
inductive RegItem where
  | action (a : String) (h : Handler) (ps : List Processor)
  | pattern (m : HTTPMethod) (pat : String) (h : Handler)
      (ps : List Processor)
deriving DecidableEq, Repr

/-- The registration statements of `main.go` (lines 202-293), in exactly
their source order. -/
def mainRegistrations : List RegItem :=
  [ .action "" .home [],
    .action "auth:signup" .signup authPreprocessors,
    .action "auth:login" .login authPreprocessors,
    .action "auth:logout" .logout logoutPreprocessors,
    .action "record:fetch" .recordFetch recordReadPreprocessors,
    .action "record:query" .recordQuery recordReadPreprocessors,
    .action "record:save" .recordSave recordWritePreprocessors,
    .action "record:delete" .recordDelete recordWritePreprocessors,
    .pattern .get "files/(.+)" .assetGetURL assetGetPreprocessors,
    .pattern .put "files/(.+)" .assetUploadURL assetUploadPreprocessors,
    .action "device:register" .deviceRegister devicePreprocessors,
    .action "subscription:fetch_all" .subscriptionFetchAll
      recordReadPreprocessors,
    .action "subscription:fetch" .subscriptionFetch
      recordReadPreprocessors,
    .action "subscription:save" .subscriptionSave recordReadPreprocessors,
    .action "subscription:delete" .subscriptionDelete
      recordReadPreprocessors,
    .action "relation:query" .relationQuery recordReadPreprocessors,
    .action "relation:add" .relationAdd recordReadPreprocessors,
    .action "relation:remove" .relationRemove recordReadPreprocessors,
    .action "user:query" .userQuery userReadPreprocessors,
    .action "user:update" .userUpdate userWritePreprocessors ]

/-- Apply one registration statement to the router. -/
def applyReg (r : Router) (it : RegItem) : Except RegErr Router :=
  match it with
  | .action a h ps => routerMap r a h ps
  | .pattern m pat h ps => .ok (routerPattern r m pat h ps)

/-- The router built by `main.go` through its registration statements. -/
def nativeRouterE : Except RegErr Router :=
  mainRegistrations.foldlM applyReg emptyRouter

/-- The native router (all registrations of `main.go` succeed; see
`nativeRouterE_ok`). -/
def nativeRouter : Router :=
  match nativeRouterE with
  | .ok r => r
  | .error _ => emptyRouter

/-- All registered routes of a router: the action routes and the pattern
routes, each as a handler plus chain. -/
def registeredRoutes (r : Router) : List Route :=
  r.actions.map (fun e => e.2) ++
    r.patterns.map (fun e => ⟨e.handler, e.preprocessors⟩)

/-! ## Dispatch semantics

The `router` package's dispatch loop is not among the available sources;
the functions below model it from the spec.  A preprocessor's effect on
one request is abstracted as a state transformer `Processor → σ → σ ×
Option String`: it may mutate the per-request context (the `σ` part) and
may set an error on it (the `Option String` part).  The result records,
besides the final context and error, the list of preprocessors that were
actually executed, in execution order, and whether the handler ran. -/

/-- Modelled from the spec: run the preprocessor chain in order; execution
stops at the first preprocessor that sets an error on the context.
Returns the final context, the error (if any), and the preprocessors that
actually ran, in order. -/
def runChainS {σ : Type} (f : Processor → σ → σ × Option String) :
    List Processor → σ → σ × Option String × List Processor
  | [], s => (s, none, [])
  | p :: rest, s =>
    match f p s with
    | (s', some e) => (s', some e, [p])
    | (s', none) =>
      match runChainS f rest s' with
      | (s'', res, v) => (s'', res, p :: v)

/-- Result of dispatching one request to one route. -/
structure DispatchResult (σ : Type) where
  state : σ
  err : Option String
  visited : List Processor
  handlerRan : Bool
deriving Repr

/-- Modelled from the spec: dispatch runs each preprocessor in order; a
preprocessor that sets an error immediately short-circuits the chain — the
handler is never invoked and the error is returned as-is; if the chain
completes, the handler runs exactly once and its result or error becomes
the response.  `g` abstracts a handler's effect on the context. -/
def dispatchS {σ : Type} (f : Processor → σ → σ × Option String)
    (g : Handler → σ → σ × Option String) (rt : Route) (s : σ) :
    DispatchResult σ :=
  match runChainS f rt.preprocessors s with
  | (s', some e, v) => ⟨s', some e, v, false⟩
  | (s', none, v) =>
    match g rt.handler s' with
    | (s'', res) => ⟨s'', res, v, true⟩

/-- A preprocessor that performs API-key validation or user
authentication: `apiKeyValidatonPreprocessor.Preprocess` or
`userAuthenticator.Preprocess` in `main.go`. -/
def isAuthProcessor : Processor → Bool
  | .apiKeyValidaton => true
  | .authenticator => true
  | _ => false

/-! ## Startup model

`main.go` is modelled as a function from its inputs (command-line
arguments, the `OD_CONFIG` environment variable, the outcome of reading
the configuration file, and the outcomes of the external push/asset-store
setups) to a trace of observable startup events plus the final router and
registries.  The plugin `Init` behaviour is modelled from the spec, since
the `plugin` package is not among the available sources. -/

/-- Modelled from the spec: the content of a successful `init` handshake
response — the action names the plugin handles, its (record type, trigger
point) hooks, its lambda names, and its (schedule, name) timers. -/
structure PluginRegInfo where
  handlers : List String
  hooks : List (String × String)
  lambdas : List String
  timers : List (String × String)
deriving DecidableEq, Repr

/-- Modelled from the spec: the hook / lambda / timer registries that
plugins populate.  Each entry carries the index of the plugin that
registered it. -/
structure Registries where
  hooks : List (String × String × Nat)
  lambdas : List (String × Nat)
  timers : List (String × String × Nat)
deriving DecidableEq, Repr

def emptyRegistries : Registries := ⟨[], [], []⟩

/-- Observable startup events of `main.go`. -/
inductive Event where
  | usageExit
  | readConfig (path : String)
  | configError (msg : String)
  | apnsEnvError
  | fatalPush
  | assetPanic
  | registerAction (a : String)
  | registerPattern (m : HTTPMethod) (pat : String)
  | pluginInit (i : Nat)
  | pluginDisabled (i : Nat)
  | pluginRegister (i : Nat) (name : String)
  | duplicateFatal
  | cronStart
  | listen
deriving DecidableEq, Repr

/-- The event recorded for one registration statement of `main.go`. -/
def regEventOf : RegItem → Event
  | .action a _ _ => .registerAction a
  | .pattern m pat _ _ => .registerPattern m pat

/-- The native registration events, in source order. -/
def regEvents : List Event := mainRegistrations.map regEventOf

/-- Modelled from the spec: register a plugin's declared handlers into the
router, one `register(action, handler, preprocessors[])` call per declared
action name, failing on the first duplicate. -/
def registerPluginHandlers (i : Nat) :
    List String → Router → Except RegErr Router
  | [], r => .ok r
  | n :: ns, r =>
    match routerMap r n (.pluginHandler i n) [] with
    | .error e => .error e
    | .ok r' => registerPluginHandlers i ns r'

/-- Modelled from the spec: `registerLambda(name, invocable)` fails with
`DuplicateRegistration` on name collision. -/
def registerPluginLambdas (i : Nat) :
    List String → List (String × Nat) →
    Except RegErr (List (String × Nat))
  | [], acc => .ok acc
  | n :: ns, acc =>
    if acc.any (fun e => e.1 = n) then .error .duplicateRegistration
    else registerPluginLambdas i ns (acc ++ [(n, i)])

/-- Modelled from the spec: `registerTimer(schedule, invocable)` fails
with `DuplicateRegistration` on name collision. -/
def registerPluginTimers (i : Nat) :
    List (String × String) → List (String × String × Nat) →
    Except RegErr (List (String × String × Nat))
  | [], acc => .ok acc
  | t :: ts, acc =>
    if acc.any (fun e => e.2.1 = t.2) then .error .duplicateRegistration
    else registerPluginTimers i ts (acc ++ [(t.1, t.2, i)])

/-- Modelled from the spec: a successfully handshaken plugin's `Init`
installs the handlers, hooks, lambdas and timers it declared; handler and
lambda/timer name collisions fail with `DuplicateRegistration`, hook
registration appends (append, not replace). -/
def installPlugin (i : Nat) (info : PluginRegInfo) (r : Router)
    (regs : Registries) : Except RegErr (Router × Registries) :=
  match registerPluginHandlers i info.handlers r with
  | .error e => .error e
  | .ok r' =>
    match registerPluginLambdas i info.lambdas regs.lambdas with
    | .error e => .error e
    | .ok lambdas' =>
      match registerPluginTimers i info.timers regs.timers with
      | .error e => .error e
      | .ok timers' =>
        .ok (r',
          { hooks :=
              regs.hooks ++ info.hooks.map (fun hk => (hk.1, hk.2, i)),
            lambdas := lambdas', timers := timers' })

/-- The registration events recorded for one successfully installed
plugin. -/
def installEvents (i : Nat) (info : PluginRegInfo) : List Event :=
  info.handlers.map (Event.pluginRegister i) ++
  info.hooks.map (fun hk => Event.pluginRegister i (hk.1 ++ ":" ++ hk.2)) ++
  info.lambdas.map (Event.pluginRegister i) ++
  info.timers.map (fun t => Event.pluginRegister i t.2)

/-- Modelled from the spec: the plugin init loop of `main.go` (lines
302-305).  Element `none` stands for a plugin whose process failed its
init handshake (exited before responding, timed out, or responded
malformed): it is marked disabled and its registrations are skipped, and
the loop continues.  A duplicate registration from a successfully
handshaken plugin is fatal at startup.  Returns the events, the final
router and registries, and whether the loop completed. -/
def pluginPhase (r : Router) (regs : Registries) (i : Nat) :
    List (Option PluginRegInfo) → List Event × Router × Registries × Bool
  | [] => ([], r, regs, true)
  | none :: rest =>
    match pluginPhase r regs (i + 1) rest with
    | (evs, r', regs', ok) => (.pluginDisabled i :: evs, r', regs', ok)
  | some info :: rest =>
    match installPlugin i info r regs with
    | .error _ => ([.pluginInit i, .duplicateFatal], r, regs, false)
    | .ok (r', regs') =>
      match pluginPhase r' regs' (i + 1) rest with
      | (evs, r'', regs'', ok) =>
        (.pluginInit i :: (installEvents i info ++ evs), r'', regs'', ok)

/-- The fields of the `Configuration` struct that the modelled control
flow of `main.go` reads.  Each element of `plugins` is one configured
plugin descriptor together with the outcome of its init handshake
(`none` = handshake failure). -/
structure Configuration where
  subscriptionEnabled : Bool
  apnsEnv : String
  assetStoreImpl : String
  plugins : List (Option PluginRegInfo)
deriving DecidableEq, Repr

/-- The inputs of one run of `main`: `os.Args` (program name included),
the `OD_CONFIG` environment variable, the outcome of `ReadFileInto` at the
resolved path, and the outcomes of the external push-sender and S3-store
setups. -/
structure Input where
  args : List String
  odConfig : String
  cfgResult : Except String Configuration
  pushOk : Bool
  s3Ok : Bool
deriving Repr

/-- The observable outcome of one run of `main`: the event trace and the
final router and registries. -/
structure MainResult where
  trace : List Event
  router : Router
  registries : Registries
deriving Repr

/-- The asset-store switch of `main.go` (lines 165-185): `fs` always
succeeds, `s3` succeeds when `asset.NewS3Store` does, anything else
panics. -/
def assetStoreOk (cfg : Configuration) (s3Ok : Bool) : Bool :=
  match cfg.assetStoreImpl with
  | "fs" => true
  | "s3" => s3Ok
  | _ => false

/-- The registration-and-serve tail of `main` (lines 165-312): asset-store
setup, native route registration, plugin init loop, cron start, then
`ListenAndServe`. -/
def registrationPhase (inp : Input) (cfg : Configuration) : MainResult :=
  if assetStoreOk cfg inp.s3Ok then
    match nativeRouterE with
    | .error _ => ⟨[.duplicateFatal], emptyRouter, emptyRegistries⟩
    | .ok r0 =>
      match pluginPhase r0 emptyRegistries 0 cfg.plugins with
      | (evs, rF, regsF, ok) =>
        if ok then ⟨regEvents ++ evs ++ [.cronStart, .listen], rF, regsF⟩
        else ⟨regEvents ++ evs, rF, regsF⟩
  else ⟨[.assetPanic], emptyRouter, emptyRegistries⟩

/-- `main` after the config file has been read (lines 113-312): on
subscription-enabled configs check `apns.env` (only `sandbox` and
`production` are accepted) and set up the push sender (fatal on failure);
then the registration phase. -/
def afterRead (inp : Input) : MainResult :=
  match inp.cfgResult with
  | .error msg => ⟨[.configError msg], emptyRouter, emptyRegistries⟩
  | .ok cfg =>
    if cfg.subscriptionEnabled then
      if cfg.apnsEnv = "sandbox" ∨ cfg.apnsEnv = "production" then
        if inp.pushOk then registrationPhase inp cfg
        else ⟨[.fatalPush], emptyRouter, emptyRegistries⟩
      else ⟨[.apnsEnvError], emptyRouter, emptyRegistries⟩
    else registrationPhase inp cfg

/-- `main` after the config path has been resolved: record the
`ReadFileInto` call at that path, then continue. -/
def mainWithPath (inp : Input) (path : String) : MainResult :=
  ⟨.readConfig path :: (afterRead inp).trace, (afterRead inp).router,
    (afterRead inp).registries⟩

/-- The modelled `main` (lines 101-313): with fewer than two elements in
`os.Args` the config path is taken from `OD_CONFIG`; if that is empty,
print the usage line and return (a normal return, not an error exit);
otherwise the first argument is the config path. -/
def mainRun (inp : Input) : MainResult :=
  if inp.args.length < 2 then
    if inp.odConfig = "" then ⟨[.usageExit], emptyRouter, emptyRegistries⟩
    else mainWithPath inp inp.odConfig
  else mainWithPath inp (inp.args.getD 1 "")

/-- Number of configured plugins of an input (zero when the config is
unreadable). -/
def pluginCount (inp : Input) : Nat :=
  match inp.cfgResult with
  | .ok cfg => cfg.plugins.length
  | .error _ => 0

/-- Whether startup gets past configuration and external setup and reaches
route registration: a config path was supplied, the config file was
readable, the APNS environment is valid and the push sender comes up when
subscriptions are enabled, and the asset store initializes. -/
def startupOk (inp : Input) : Bool :=
  (decide (2 ≤ inp.args.length) || !(inp.odConfig == "")) &&
  (match inp.cfgResult with
   | .error _ => false
   | .ok cfg =>
     (if cfg.subscriptionEnabled then
        (cfg.apnsEnv == "sandbox" || cfg.apnsEnv == "production") &&
          inp.pushOk
      else true) &&
     assetStoreOk cfg inp.s3Ok)

/-- Events that perform a registration (native route or plugin
contribution). -/
def isRegistrationEvent : Event → Bool
  | .registerAction _ => true
  | .registerPattern _ _ => true
  | .pluginRegister _ _ => true
  | _ => false

/-- Events that report a startup error. -/
def isErrorEvent : Event → Bool
  | .configError _ => true
  | .apnsEnvError => true
  | .fatalPush => true
  | .assetPanic => true
  | .duplicateFatal => true
  | _ => false

/-! ## The logging middleware (`responseLogger`, `logMiddleware`)

`main.go` lines 27-95.  Bytes are modelled as `Nat`, an HTTP status as a
`Nat`.  A handler's interaction with its `http.ResponseWriter` is a
sequence of `Write` / `WriteHeader` calls; the `uTrace` field of the
logger records the calls it forwards to the underlying writer `l.w`, in
order. -/

/-- One call a handler makes on its response writer. -/
inductive WOp where
  | write (bs : List Nat)
  | writeHeader (s : Nat)
deriving DecidableEq, Repr

/-- The `responseLogger` struct (main.go lines 27-32): the underlying
writer is represented by the trace of calls forwarded to it. -/
structure ResponseLogger where
  uTrace : List WOp
  status : Nat
  size : Nat
  b : List Nat
deriving DecidableEq, Repr

/-- A fresh `responseLogger{w: w}`: zero status and size, empty buffer. -/
def initLogger : ResponseLogger := ⟨[], 0, 0, []⟩

/-- `responseLogger.Write` (main.go lines 38-47): if `WriteHeader` has not
been called the status becomes 200 (`http.StatusOK`); the bytes are
buffered, forwarded to the underlying writer, and counted. -/
def rlWrite (l : ResponseLogger) (bs : List Nat) : ResponseLogger :=
  { uTrace := l.uTrace ++ [.write bs]
    status := if l.status = 0 then 200 else l.status
    size := l.size + bs.length
    b := l.b ++ bs }

/-- `responseLogger.WriteHeader` (main.go lines 49-52): forward the call
and record the status. -/
def rlWriteHeader (l : ResponseLogger) (s : Nat) : ResponseLogger :=
  { l with uTrace := l.uTrace ++ [.writeHeader s], status := s }

/-- Run a handler's sequence of response-writer calls through the
logger. -/
def runOps (l : ResponseLogger) : List WOp → ResponseLogger
  | [] => l
  | .write bs :: rest => runOps (rlWrite l bs) rest
  | .writeHeader s :: rest => runOps (rlWriteHeader l s) rest

/-- `true` for ops that carry body bytes. -/
def isWriteOp : WOp → Bool
  | .write _ => true
  | .writeHeader _ => false

/-- `true` for ops that are not `WriteHeader` calls. -/
def notWriteHeaderOp : WOp → Bool
  | .write _ => true
  | .writeHeader _ => false

/-- An HTTP request as the middleware sees it: its body stream. -/
structure Request where
  body : List Nat
deriving DecidableEq, Repr

/-- `ioutil.ReadAll(r.Body)`: returns the content and leaves the stream
exhausted. -/
def readAllBody (r : Request) : List Nat × Request :=
  (r.body, { body := [] })

/-- The request handed to the inner handler by `logMiddleware` (main.go
lines 75-76): the body is read in full for logging and then replaced by
`ioutil.NopCloser(bytes.NewReader(body))`, a fresh reader over the same
bytes. -/
def middlewareRequest (r : Request) : Request :=
  match readAllBody r with
  | (body, r') => { r' with body := body }

/-! ## Stub preprocessors and handlers used to exercise the dispatch
semantics on concrete inputs. -/

/-- A stub interpretation under which the `conn` preprocessor sets the
error `"boom"` and every other preprocessor passes. -/
def connFailsStub : Processor → Unit → Unit × Option String :=
  fun p u => (u, if p = Processor.conn then some "boom" else none)

/-- A stub handler interpretation that succeeds without touching the
context. -/
def okHandlerStub : Handler → Unit → Unit × Option String :=
  fun _ u => (u, none)

/-- A stub interpretation that appends each executed preprocessor to a
log carried in the context and never errors. -/
def logStub : Processor → List Processor → List Processor × Option String :=
  fun p l => (l ++ [p], none)

/-! ## Concrete inputs used to exercise the startup model -/

/-- A readable config with the `fs` asset store, subscriptions off, and
two plugins — the first fails its handshake, the second declares one
handler, hook, lambda and timer. -/
def cfgOkW : Configuration :=
  { subscriptionEnabled := false
    apnsEnv := ""
    assetStoreImpl := "fs"
    plugins :=
      [none,
       some
         { handlers := ["demo:echo"]
           hooks := [("note", "beforeSave")]
           lambdas := ["hello"]
           timers := [("@every 1m", "tick")] }] }

/-- A fully healthy startup using `cfgOkW`. -/
def inpOkW : Input :=
  { args := ["ourd", "development.ini"]
    odConfig := ""
    cfgResult := .ok cfgOkW
    pushOk := true
    s3Ok := true }

/-- A startup whose config file cannot be read. -/
def inpBadCfgW : Input :=
  { args := ["ourd", "missing.ini"]
    odConfig := ""
    cfgResult := .error "open missing.ini: no such file"
    pushOk := true
    s3Ok := true }

/-- No argument and no `OD_CONFIG`: the usage-line exit. -/
def inpUsageW : Input :=
  { args := ["ourd"]
    odConfig := ""
    cfgResult := .error "unread"
    pushOk := true
    s3Ok := true }

/-- No argument but `OD_CONFIG` set: the env variable supplies the path. -/
def inpEnvW : Input :=
  { args := ["ourd"]
    odConfig := "conf.ini"
    cfgResult := .error "unread"
    pushOk := true
    s3Ok := true }

/-! # Theorems -/

/-- Under an interpretation in which no preprocessor ever errors, running
a chain produces no error. -/
theorem runChainS_clean_err {σ : Type}
    (f : Processor → σ → σ × Option String)
    (hf : ∀ p s', (f p s').2 = none) :
    ∀ (ps : List Processor) (s : σ), (runChainS f ps s).2.1 = none := by
  intro ps
  induction ps with
  | nil => intro s; rfl
  | cons p rest ih =>
    intro s
    rcases hp : f p s with ⟨s', e⟩
    have he : e = none := by have h := hf p s; rw [hp] at h; exact h
    subst he
    rcases hr : runChainS f rest s' with ⟨s'', res, v⟩
    have h := ih s'
    rw [hr] at h
    simp [runChainS, hp, hr]
    exact h

/-- A chain run that produced no error visited exactly the whole chain. -/
theorem runChainS_visited_of_none {σ : Type}
    (f : Processor → σ → σ × Option String) :
    ∀ (ps : List Processor) (s : σ), (runChainS f ps s).2.1 = none →
      (runChainS f ps s).2.2 = ps := by
  intro ps
  induction ps with
  | nil => intro s _; rfl
  | cons p rest ih =>
    intro s h
    rcases hp : f p s with ⟨s', e⟩
    cases e with
    | some e0 => simp [runChainS, hp] at h
    | none =>
      rcases hr : runChainS f rest s' with ⟨s'', res, v⟩
      have h' := ih s'
      rw [hr] at h'
      simp [runChainS, hp, hr] at h ⊢
      exact h' h

/-- Running `pre ++ rest` decomposes when `pre` runs without error: the
run continues with `rest` from the context `pre` produced, and the visited
list is `pre`'s followed by `rest`'s. -/
theorem runChainS_append {σ : Type}
    (f : Processor → σ → σ × Option String) :
    ∀ (pre rest : List Processor) (s s₁ : σ) (v₁ : List Processor),
      runChainS f pre s = (s₁, none, v₁) →
      runChainS f (pre ++ rest) s =
        ((runChainS f rest s₁).1, (runChainS f rest s₁).2.1,
          v₁ ++ (runChainS f rest s₁).2.2) := by
  intro pre
  induction pre with
  | nil =>
    intro rest s s₁ v₁ h
    simp [runChainS] at h
    obtain ⟨h1, h2⟩ := h
    subst h1
    subst h2
    simp
  | cons p pr ih =>
    intro rest s s₁ v₁ h
    rcases hp : f p s with ⟨s', e⟩
    cases e with
    | some e0 => simp [runChainS, hp] at h
    | none =>
      rcases hr : runChainS f pr s' with ⟨s'', res, v⟩
      simp [runChainS, hp, hr] at h
      obtain ⟨h1, h2, h3⟩ := h
      subst h1
      subst h2
      subst h3
      have hih := ih rest s' s'' v hr
      simp [runChainS, hp, hih]

/-- Dispatch short-circuits at the first erroring preprocessor: shared
helper for the short-circuit and veto theorems. -/
theorem dispatchS_stops {σ : Type}
    (f : Processor → σ → σ × Option String)
    (g : Handler → σ → σ × Option String)
    (rt : Route)
    (pre : List Processor) (p : Processor) (post : List Processor)
    (s s₁ : σ) (v₁ : List Processor) (e : String)
    (hsplit : rt.preprocessors = pre ++ p :: post)
    (hpre : runChainS f pre s = (s₁, none, v₁))
    (hp : (f p s₁).2 = some e) :
    dispatchS f g rt s = ⟨(f p s₁).1, some e, pre ++ [p], false⟩ := by
  have hv : v₁ = pre := by
    have h := runChainS_visited_of_none f pre s (by rw [hpre])
    rw [hpre] at h
    exact h
  rcases hfp : f p s₁ with ⟨s₂, e₂⟩
  have he₂ : e₂ = some e := by rw [hfp] at hp; exact hp
  subst he₂
  have hcons : runChainS f (p :: post) s₁ = (s₂, some e, [p]) := by
    simp [runChainS, hfp]
  have happ := runChainS_append f pre (p :: post) s s₁ v₁ hpre
  rw [hcons] at happ
  simp [dispatchS, hsplit, happ, hv]

/-- An authentication preprocessor found at a given chain position can
veto: if it errors (after an error-free prefix), the handler never runs. -/
theorem vetoAt (rt : Route) (pre : List Processor) (p : Processor)
    (post : List Processor)
    (hsplit : rt.preprocessors = pre ++ p :: post) :
    ∀ (σ : Type) (f : Processor → σ → σ × Option String)
      (g : Handler → σ → σ × Option String) (s s₁ : σ)
      (v₁ : List Processor) (e : String),
      runChainS f pre s = (s₁, none, v₁) → (f p s₁).2 = some e →
      (dispatchS f g rt s).handlerRan = false := by
  intro σ f g s s₁ v₁ e h1 h2
  rw [dispatchS_stops f g rt pre p post s s₁ v₁ e hsplit h1 h2]

/-- C1: For every registered route, if a preprocessor sets an error on the
request context (after an error-free prefix of the chain), dispatch stops
immediately: the executed preprocessors are exactly the prefix plus the
erroring one (no later preprocessor runs), the handler is never invoked,
and that error is returned to the caller unchanged — for any handler
interpretation and any suffix of the chain. -/
theorem errorShortCircuitsDispatch {σ : Type}
    (f : Processor → σ → σ × Option String)
    (g : Handler → σ → σ × Option String)
    (rt : Route) (hrt : rt ∈ registeredRoutes nativeRouter)
    (pre : List Processor) (p : Processor) (post : List Processor)
    (s s₁ : σ) (v₁ : List Processor) (e : String)
    (hsplit : rt.preprocessors = pre ++ p :: post)
    (hpre : runChainS f pre s = (s₁, none, v₁))
    (hp : (f p s₁).2 = some e) :
    dispatchS f g rt s = ⟨(f p s₁).1, some e, pre ++ [p], false⟩ :=
  dispatchS_stops f g rt pre p post s s₁ v₁ e hsplit hpre hp

/-- C2: For every registered route, the preprocessors execute in exactly
the order in which they were supplied at registration: under any
interpretation in which no preprocessor errors, the execution log of the
chain is exactly the route's stored (registration-order) chain. -/
theorem preprocessorsRunInRegistrationOrder {σ : Type}
    (f : Processor → σ → σ × Option String) (rt : Route)
    (hrt : rt ∈ registeredRoutes nativeRouter) (s : σ)
    (hf : ∀ p s', (f p s').2 = none) :
    (runChainS f rt.preprocessors s).2.2 = rt.preprocessors :=
  runChainS_visited_of_none f rt.preprocessors s
    (runChainS_clean_err f hf rt.preprocessors s)

/-- Witness for C1: on the registered `auth:signup` route, with a stub
interpretation whose `conn` preprocessor errors, dispatch visits only the
first two preprocessors, skips the handler, and returns `"boom"`. -/
theorem errorShortCircuitsDispatch_check :
    ((⟨Handler.signup, authPreprocessors⟩ : Route) ∈
      registeredRoutes nativeRouter) ∧
    runChainS connFailsStub [Processor.apiKeyValidaton] () =
      ((), none, [Processor.apiKeyValidaton]) ∧
    (connFailsStub Processor.conn ()).2 = some "boom" ∧
    dispatchS connFailsStub okHandlerStub
      ⟨Handler.signup, authPreprocessors⟩ () =
      ⟨(connFailsStub Processor.conn ()).1, some "boom",
        [Processor.apiKeyValidaton] ++ [Processor.conn], false⟩ :=
  ⟨by decide, by decide, by decide,
    errorShortCircuitsDispatch connFailsStub okHandlerStub
      ⟨Handler.signup, authPreprocessors⟩ (by decide)
      [Processor.apiKeyValidaton] Processor.conn [Processor.tokenStore]
      () () [Processor.apiKeyValidaton] "boom" rfl (by decide)
      (by decide)⟩

/-- Witness for C2: on the registered `record:save` route, the logging
stub interpretation records the preprocessors in exactly registration
order. -/
theorem preprocessorsRunInRegistrationOrder_check :
    ((⟨Handler.recordSave, recordWritePreprocessors⟩ : Route) ∈
      registeredRoutes nativeRouter) ∧
    (runChainS logStub recordWritePreprocessors []).2.2 =
      recordWritePreprocessors :=
  ⟨by decide,
    preprocessorsRunInRegistrationOrder logStub
      ⟨Handler.recordSave, recordWritePreprocessors⟩ (by decide) []
      (fun _ _ => rfl)⟩

/-- Counterexample to C3 as stated: the home action `""` is registered
with an empty preprocessor chain, and the asset-download pattern route
`GET files/(.+)` is registered with only the connection and asset-store
preprocessors — neither chain contains the API-key-validation or the
user-authenticator preprocessor, so on these routes no authentication
preprocessor can run (or veto) before the handler. -/
theorem authOnEveryRoute_cex :
    lookupAction nativeRouter "" = some ⟨Handler.home, []⟩ ∧
    lookupPattern nativeRouter HTTPMethod.get "files/(.+)" =
      some ⟨Handler.assetGetURL, assetGetPreprocessors⟩ ∧
    assetGetPreprocessors.any isAuthProcessor = false ∧
    ¬ (∀ rt ∈ registeredRoutes nativeRouter,
        rt.preprocessors.any isAuthProcessor = true) := by
  refine ⟨by decide, by decide, by decide, ?_⟩
  intro h
  have hmem : (⟨Handler.home, []⟩ : Route) ∈ registeredRoutes nativeRouter :=
    by decide
  have := h ⟨Handler.home, []⟩ hmem
  simp [List.any] at this

/-- C3 amended: for every route registered by the server except the home
route (action `""`, handler `HomeHandler`) and the asset-download route
(`GET files/(.+)`, handler `AssetGetURLHandler`), an authentication
preprocessor (API-key validation or the user authenticator) appears in the
chain, positioned before the handler: if it errors (after an error-free
prefix), the handler is never invoked. -/
theorem authOnEveryRouteExceptHomeAndAssetGet
    (rt : Route) (hrt : rt ∈ registeredRoutes nativeRouter)
    (hhome : rt.handler ≠ Handler.home)
    (hget : rt.handler ≠ Handler.assetGetURL) :
    ∃ pre p post, rt.preprocessors = pre ++ p :: post ∧
      isAuthProcessor p = true ∧
      ∀ (σ : Type) (f : Processor → σ → σ × Option String)
        (g : Handler → σ → σ × Option String) (s s₁ : σ)
        (v₁ : List Processor) (e : String),
        runChainS f pre s = (s₁, none, v₁) → (f p s₁).2 = some e →
        (dispatchS f g rt s).handlerRan = false := by
  have hlist : registeredRoutes nativeRouter =
      [⟨Handler.home, []⟩,
       ⟨Handler.signup, authPreprocessors⟩,
       ⟨Handler.login, authPreprocessors⟩,
       ⟨Handler.logout, logoutPreprocessors⟩,
       ⟨Handler.recordFetch, recordReadPreprocessors⟩,
       ⟨Handler.recordQuery, recordReadPreprocessors⟩,
       ⟨Handler.recordSave, recordWritePreprocessors⟩,
       ⟨Handler.recordDelete, recordWritePreprocessors⟩,
       ⟨Handler.deviceRegister, devicePreprocessors⟩,
       ⟨Handler.subscriptionFetchAll, recordReadPreprocessors⟩,
       ⟨Handler.subscriptionFetch, recordReadPreprocessors⟩,
       ⟨Handler.subscriptionSave, recordReadPreprocessors⟩,
       ⟨Handler.subscriptionDelete, recordReadPreprocessors⟩,
       ⟨Handler.relationQuery, recordReadPreprocessors⟩,
       ⟨Handler.relationAdd, recordReadPreprocessors⟩,
       ⟨Handler.relationRemove, recordReadPreprocessors⟩,
       ⟨Handler.userQuery, userReadPreprocessors⟩,
       ⟨Handler.userUpdate, userWritePreprocessors⟩,
       ⟨Handler.assetGetURL, assetGetPreprocessors⟩,
       ⟨Handler.assetUploadURL, assetUploadPreprocessors⟩] := by decide
  rw [hlist] at hrt
  fin_cases hrt
  case «0» => exact absurd rfl hhome
  case «18» => exact absurd rfl hget
  case «1» =>
    exact ⟨[], .apiKeyValidaton, [.conn, .tokenStore], rfl, rfl,
      vetoAt _ _ _ _ rfl⟩
  case «2» =>
    exact ⟨[], .apiKeyValidaton, [.conn, .tokenStore], rfl, rfl,
      vetoAt _ _ _ _ rfl⟩
  case «3» =>
    exact ⟨[.tokenStore], .authenticator, [], rfl, rfl, vetoAt _ _ _ _ rfl⟩
  case «4» =>
    exact ⟨[.tokenStore], .authenticator,
      [.conn, .assetStore, .injectUserIfPresent, .injectDatabase], rfl, rfl,
      vetoAt _ _ _ _ rfl⟩
  case «5» =>
    exact ⟨[.tokenStore], .authenticator,
      [.conn, .assetStore, .injectUserIfPresent, .injectDatabase], rfl, rfl,
      vetoAt _ _ _ _ rfl⟩
  case «6» =>
    exact ⟨[.hookRegistry, .tokenStore], .authenticator,
      [.conn, .assetStore, .injectUserIfPresent, .injectDatabase,
       .requireUserForWrite], rfl, rfl, vetoAt _ _ _ _ rfl⟩
  case «7» =>
    exact ⟨[.hookRegistry, .tokenStore], .authenticator,
      [.conn, .assetStore, .injectUserIfPresent, .injectDatabase,
       .requireUserForWrite], rfl, rfl, vetoAt _ _ _ _ rfl⟩
  case «8» =>
    exact ⟨[.tokenStore], .authenticator, [.conn, .injectUserIfPresent],
      rfl, rfl, vetoAt _ _ _ _ rfl⟩
  case «9» =>
    exact ⟨[.tokenStore], .authenticator,
      [.conn, .assetStore, .injectUserIfPresent, .injectDatabase], rfl, rfl,
      vetoAt _ _ _ _ rfl⟩
  case «10» =>
    exact ⟨[.tokenStore], .authenticator,
      [.conn, .assetStore, .injectUserIfPresent, .injectDatabase], rfl, rfl,
      vetoAt _ _ _ _ rfl⟩
  case «11» =>
    exact ⟨[.tokenStore], .authenticator,
      [.conn, .assetStore, .injectUserIfPresent, .injectDatabase], rfl, rfl,
      vetoAt _ _ _ _ rfl⟩
  case «12» =>
    exact ⟨[.tokenStore], .authenticator,
      [.conn, .assetStore, .injectUserIfPresent, .injectDatabase], rfl, rfl,
      vetoAt _ _ _ _ rfl⟩
  case «13» =>
    exact ⟨[.tokenStore], .authenticator,
      [.conn, .assetStore, .injectUserIfPresent, .injectDatabase], rfl, rfl,
      vetoAt _ _ _ _ rfl⟩
  case «14» =>
    exact ⟨[.tokenStore], .authenticator,
      [.conn, .assetStore, .injectUserIfPresent, .injectDatabase], rfl, rfl,
      vetoAt _ _ _ _ rfl⟩
  case «15» =>
    exact ⟨[.tokenStore], .authenticator,
      [.conn, .assetStore, .injectUserIfPresent, .injectDatabase], rfl, rfl,
      vetoAt _ _ _ _ rfl⟩
  case «16» =>
    exact ⟨[.tokenStore], .authenticator,
      [.conn, .injectUserIfPresent, .injectDatabase], rfl, rfl,
      vetoAt _ _ _ _ rfl⟩
  case «17» =>
    exact ⟨[.tokenStore], .authenticator,
      [.conn, .injectUserIfPresent, .injectDatabase, .requireUserForWrite],
      rfl, rfl, vetoAt _ _ _ _ rfl⟩
  case «19» =>
    exact ⟨[.tokenStore], .authenticator, [.conn, .assetStore], rfl, rfl,
      vetoAt _ _ _ _ rfl⟩

/-- Witness for the amended C3: the `auth:signup` route carries the
API-key-validation preprocessor before its handler. -/
theorem authOnEveryRouteExceptHomeAndAssetGet_check :
    ((⟨Handler.signup, authPreprocessors⟩ : Route) ∈
      registeredRoutes nativeRouter) ∧
    (Handler.signup ≠ Handler.home) ∧
    (Handler.signup ≠ Handler.assetGetURL) ∧
    (∃ pre p post, authPreprocessors = pre ++ p :: post ∧
      isAuthProcessor p = true ∧
      ∀ (σ : Type) (f : Processor → σ → σ × Option String)
        (g : Handler → σ → σ × Option String) (s s₁ : σ)
        (v₁ : List Processor) (e : String),
        runChainS f pre s = (s₁, none, v₁) → (f p s₁).2 = some e →
        (dispatchS f g ⟨Handler.signup, authPreprocessors⟩ s).handlerRan =
          false) :=
  ⟨by decide, by decide, by decide,
    authOnEveryRouteExceptHomeAndAssetGet
      ⟨Handler.signup, authPreprocessors⟩ (by decide) (by decide)
      (by decide)⟩

/-- C5: registering a second route under an action key that is already
bound fails with the duplicate-registration error (which is fatal at
startup: the `Except.error` propagates out of the registration fold), and
the existing binding is untouched — the first binding is never silently
shadowed. -/
theorem duplicateRegistrationRejected (r : Router) (a : String)
    (rt : Route) (h : Handler) (ps : List Processor)
    (hbound : lookupAction r a = some rt) :
    routerMap r a h ps = .error .duplicateRegistration ∧
    lookupAction r a = some rt := by
  refine ⟨?_, hbound⟩
  have hany : r.actions.any (fun e => e.1 = a) = true := by
    unfold lookupAction at hbound
    cases hfind : r.actions.find? (fun e => e.1 = a) with
    | none => rw [hfind] at hbound; simp at hbound
    | some x =>
      have hx := List.mem_of_find?_eq_some hfind
      have hfx := List.find?_some hfind
      exact List.any_eq_true.mpr ⟨x, hx, hfx⟩
  simp [routerMap, hany]

/-- Witness for C5: re-registering `record:save` on the native router is
rejected and the original binding survives. -/
theorem duplicateRegistrationRejected_check :
    lookupAction nativeRouter "record:save" =
      some ⟨Handler.recordSave, recordWritePreprocessors⟩ ∧
    (routerMap nativeRouter "record:save" Handler.home [] =
        .error .duplicateRegistration ∧
      lookupAction nativeRouter "record:save" =
        some ⟨Handler.recordSave, recordWritePreprocessors⟩) :=
  ⟨by decide,
    duplicateRegistrationRejected nativeRouter "record:save"
      ⟨Handler.recordSave, recordWritePreprocessors⟩ Handler.home []
      (by decide)⟩

/-- C9: `subscription:save` and `subscription:delete` are registered with
the record-read preprocessor chain, which contains neither
`requireUserForWrite` nor the hook-registry preprocessor — unlike
`record:save` and `record:delete`, which use the write chain containing
both. -/
theorem subscriptionWritesUseReadChain :
    lookupAction nativeRouter "subscription:save" =
      some ⟨Handler.subscriptionSave, recordReadPreprocessors⟩ ∧
    lookupAction nativeRouter "subscription:delete" =
      some ⟨Handler.subscriptionDelete, recordReadPreprocessors⟩ ∧
    lookupAction nativeRouter "record:save" =
      some ⟨Handler.recordSave, recordWritePreprocessors⟩ ∧
    lookupAction nativeRouter "record:delete" =
      some ⟨Handler.recordDelete, recordWritePreprocessors⟩ ∧
    Processor.requireUserForWrite ∉ recordReadPreprocessors ∧
    Processor.hookRegistry ∉ recordReadPreprocessors ∧
    Processor.requireUserForWrite ∈ recordWritePreprocessors ∧
    Processor.hookRegistry ∈ recordWritePreprocessors := by
  decide

/-! ### Plugin-phase lemmas -/

/-- Every event an install emits is a `pluginRegister` for that plugin. -/
theorem installEvents_mem (i : Nat) (info : PluginRegInfo) (e : Event)
    (h : e ∈ installEvents i info) :
    ∃ n, e = Event.pluginRegister i n := by
  simp only [installEvents, List.mem_append, List.mem_map] at h
  rcases h with ((⟨n, _, hn⟩ | ⟨hk, _, hn⟩) | ⟨n, _, hn⟩) | ⟨t, _, hn⟩
  · exact ⟨n, hn.symm⟩
  · exact ⟨hk.1 ++ ":" ++ hk.2, hn.symm⟩
  · exact ⟨n, hn.symm⟩
  · exact ⟨t.2, hn.symm⟩

/-- The plugin init loop emits only plugin events (init, disabled,
register) and possibly the duplicate-registration fatal. -/
theorem pluginPhase_events :
    ∀ (l : List (Option PluginRegInfo)) (r : Router) (regs : Registries)
      (b : Nat) (e : Event), e ∈ (pluginPhase r regs b l).1 →
      (∃ j, e = Event.pluginInit j) ∨ (∃ j, e = Event.pluginDisabled j) ∨
      (∃ j n, e = Event.pluginRegister j n) ∨ e = Event.duplicateFatal := by
  intro l
  induction l with
  | nil => intro r regs b e h; simp [pluginPhase] at h
  | cons x rest ih =>
    intro r regs b e h
    cases x with
    | none =>
      rcases hph : pluginPhase r regs (b + 1) rest with ⟨evs, r', regs', ok⟩
      simp only [pluginPhase, hph, List.mem_cons] at h
      rcases h with h | h
      · exact Or.inr (Or.inl ⟨b, h⟩)
      · exact ih r regs (b + 1) e (by rw [hph]; exact h)
    | some info =>
      cases hins : installPlugin b info r regs with
      | error err =>
        simp only [pluginPhase, hins, List.mem_cons, List.not_mem_nil,
          or_false] at h
        rcases h with h | h
        · exact Or.inl ⟨b, h⟩
        · exact Or.inr (Or.inr (Or.inr h))
      | ok pr =>
        rcases pr with ⟨r', regs'⟩
        rcases hph : pluginPhase r' regs' (b + 1) rest with
          ⟨evs, r'', regs'', ok⟩
        simp only [pluginPhase, hins, hph, List.mem_cons,
          List.mem_append] at h
        rcases h with h | h | h
        · exact Or.inl ⟨b, h⟩
        · rcases installEvents_mem b info e h with ⟨n, hn⟩
          exact Or.inr (Or.inr (Or.inl ⟨b, n, hn⟩))
        · exact ih r' regs' (b + 1) e (by rw [hph]; exact h)

/-- The plugin init loop never emits `listen`. -/
theorem pluginPhase_no_listen (l : List (Option PluginRegInfo))
    (r : Router) (regs : Registries) (b : Nat) :
    Event.listen ∉ (pluginPhase r regs b l).1 := by
  intro h
  rcases pluginPhase_events l r regs b _ h with
    ⟨j, hj⟩ | ⟨j, hj⟩ | ⟨j, n, hj⟩ | hj <;> simp at hj

/-- If the plugin init loop did not complete, it hit a duplicate
registration. -/
theorem pluginPhase_fatal_of_not_ok :
    ∀ (l : List (Option PluginRegInfo)) (r : Router) (regs : Registries)
      (b : Nat), (pluginPhase r regs b l).2.2.2 = false →
      Event.duplicateFatal ∈ (pluginPhase r regs b l).1 := by
  intro l
  induction l with
  | nil => intro r regs b h; simp [pluginPhase] at h
  | cons x rest ih =>
    intro r regs b h
    cases x with
    | none =>
      rcases hph : pluginPhase r regs (b + 1) rest with ⟨evs, r', regs', ok⟩
      simp only [pluginPhase, hph, List.mem_cons] at h ⊢
      have hrec := ih r regs (b + 1)
      rw [hph] at hrec
      exact Or.inr (hrec h)
    | some info =>
      cases hins : installPlugin b info r regs with
      | error err => simp [pluginPhase, hins]
      | ok pr =>
        rcases pr with ⟨r', regs'⟩
        rcases hph : pluginPhase r' regs' (b + 1) rest with
          ⟨evs, r'', regs'', ok⟩
        simp only [pluginPhase, hins, hph, List.mem_cons,
          List.mem_append] at h ⊢
        have hrec := ih r' regs' (b + 1)
        rw [hph] at hrec
        exact Or.inr (Or.inr (hrec h))

/-- When the plugin init loop completes, every configured plugin was
either initialized or marked disabled. -/
theorem pluginPhase_covers :
    ∀ (l : List (Option PluginRegInfo)) (r : Router) (regs : Registries)
      (b : Nat), (pluginPhase r regs b l).2.2.2 = true →
      ∀ k, k < l.length →
        Event.pluginInit (b + k) ∈ (pluginPhase r regs b l).1 ∨
        Event.pluginDisabled (b + k) ∈ (pluginPhase r regs b l).1 := by
  intro l
  induction l with
  | nil => intro r regs b _ k hk; simp at hk
  | cons x rest ih =>
    intro r regs b hok k hk
    have hklen : ∀ k', k = k' + 1 → k' < rest.length := by
      intro k' hk'
      subst hk'
      simp only [List.length_cons] at hk
      omega
    cases x with
    | none =>
      rcases hph : pluginPhase r regs (b + 1) rest with ⟨evs, r', regs', ok⟩
      simp only [pluginPhase, hph] at hok ⊢
      cases k with
      | zero => right; simp
      | succ k' =>
        have hih := ih r regs (b + 1)
        rw [hph] at hih
        have hm := hih hok k' (hklen k' rfl)
        have harith : b + 1 + k' = b + (k' + 1) := by omega
        rw [harith] at hm
        rcases hm with hm | hm
        · exact Or.inl (List.mem_cons_of_mem _ hm)
        · exact Or.inr (List.mem_cons_of_mem _ hm)
    | some info =>
      cases hins : installPlugin b info r regs with
      | error err => simp [pluginPhase, hins] at hok
      | ok pr =>
        rcases pr with ⟨r', regs'⟩
        rcases hph : pluginPhase r' regs' (b + 1) rest with
          ⟨evs, r'', regs'', ok⟩
        simp only [pluginPhase, hins, hph] at hok ⊢
        cases k with
        | zero => left; simp
        | succ k' =>
          have hih := ih r' regs' (b + 1)
          rw [hph] at hih
          have hm := hih hok k' (hklen k' rfl)
          have harith : b + 1 + k' = b + (k' + 1) := by omega
          rw [harith] at hm
          rcases hm with hm | hm
          · refine Or.inl (List.mem_cons_of_mem _ ?_)
            exact List.mem_append_right _ hm
          · refine Or.inr (List.mem_cons_of_mem _ ?_)
            exact List.mem_append_right _ hm

/-- When the plugin init loop completes, a plugin whose handshake failed
is marked disabled. -/
theorem pluginPhase_disabled_mem :
    ∀ (l : List (Option PluginRegInfo)) (r : Router) (regs : Registries)
      (b : Nat), (pluginPhase r regs b l).2.2.2 = true →
      ∀ k, l.get? k = some none →
        Event.pluginDisabled (b + k) ∈ (pluginPhase r regs b l).1 := by
  intro l
  induction l with
  | nil => intro r regs b _ k hk; simp at hk
  | cons x rest ih =>
    intro r regs b hok k hk
    cases x with
    | none =>
      rcases hph : pluginPhase r regs (b + 1) rest with ⟨evs, r', regs', ok⟩
      simp only [pluginPhase, hph] at hok ⊢
      cases k with
      | zero => simp
      | succ k' =>
        have hih := ih r regs (b + 1)
        rw [hph] at hih
        have hm := hih hok k' (by simpa using hk)
        have harith : b + 1 + k' = b + (k' + 1) := by omega
        rw [harith] at hm
        exact List.mem_cons_of_mem _ hm
    | some info =>
      cases hins : installPlugin b info r regs with
      | error err => simp [pluginPhase, hins] at hok
      | ok pr =>
        rcases pr with ⟨r', regs'⟩
        rcases hph : pluginPhase r' regs' (b + 1) rest with
          ⟨evs, r'', regs'', ok⟩
        simp only [pluginPhase, hins, hph] at hok ⊢
        cases k with
        | zero => simp at hk
        | succ k' =>
          have hih := ih r' regs' (b + 1)
          rw [hph] at hih
          have hm := hih hok k' (by simpa using hk)
          have harith : b + 1 + k' = b + (k' + 1) := by omega
          rw [harith] at hm
          exact List.mem_cons_of_mem _ (List.mem_append_right _ hm)

/-- Any `pluginRegister` event the loop emits belongs to a plugin at or
beyond the loop's base index. -/
theorem pluginPhase_register_ge :
    ∀ (l : List (Option PluginRegInfo)) (r : Router) (regs : Registries)
      (b j : Nat) (n : String),
      Event.pluginRegister j n ∈ (pluginPhase r regs b l).1 → b ≤ j := by
  intro l
  induction l with
  | nil => intro r regs b j n h; simp [pluginPhase] at h
  | cons x rest ih =>
    intro r regs b j n h
    cases x with
    | none =>
      rcases hph : pluginPhase r regs (b + 1) rest with ⟨evs, r', regs', ok⟩
      simp only [pluginPhase, hph, List.mem_cons] at h
      rcases h with h | h
      · simp at h
      · have := ih r regs (b + 1) j n (by rw [hph]; exact h)
        omega
    | some info =>
      cases hins : installPlugin b info r regs with
      | error err =>
        simp only [pluginPhase, hins, List.mem_cons,
          List.mem_singleton] at h
        rcases h with h | h <;> simp at h
      | ok pr =>
        rcases pr with ⟨r', regs'⟩
        rcases hph : pluginPhase r' regs' (b + 1) rest with
          ⟨evs, r'', regs'', ok⟩
        simp only [pluginPhase, hins, hph, List.mem_cons,
          List.mem_append] at h
        rcases h with h | h | h
        · simp at h
        · rcases installEvents_mem b info _ h with ⟨m, hm⟩
          cases hm
          omega
        · have := ih r' regs' (b + 1) j n (by rw [hph]; exact h)
          omega

/-- A plugin whose handshake failed contributes no registration: the loop
emits no `pluginRegister` event for its index. -/
theorem pluginPhase_register_skip :
    ∀ (l : List (Option PluginRegInfo)) (r : Router) (regs : Registries)
      (b k : Nat), l.get? k = some none →
      ∀ n, Event.pluginRegister (b + k) n ∉ (pluginPhase r regs b l).1 := by
  intro l
  induction l with
  | nil => intro r regs b k hk; simp at hk
  | cons x rest ih =>
    intro r regs b k hk n h
    cases x with
    | none =>
      rcases hph : pluginPhase r regs (b + 1) rest with ⟨evs, r', regs', ok⟩
      simp only [pluginPhase, hph, List.mem_cons] at h
      rcases h with h | h
      · simp at h
      · cases k with
        | zero =>
          have := pluginPhase_register_ge rest r regs (b + 1) (b + 0) n
            (by rw [hph]; exact h)
          omega
        | succ k' =>
          have harith : b + (k' + 1) = b + 1 + k' := by omega
          rw [harith] at h
          exact ih r regs (b + 1) k' (by simpa using hk) n
            (by rw [hph]; exact h)
    | some info =>
      cases hins : installPlugin b info r regs with
      | error err =>
        simp only [pluginPhase, hins, List.mem_cons,
          List.mem_singleton] at h
        rcases h with h | h <;> simp at h
      | ok pr =>
        rcases pr with ⟨r', regs'⟩
        rcases hph : pluginPhase r' regs' (b + 1) rest with
          ⟨evs, r'', regs'', ok⟩
        simp only [pluginPhase, hins, hph, List.mem_cons,
          List.mem_append] at h
        rcases h with h | h | h
        · simp at h
        · rcases installEvents_mem b info _ h with ⟨m, hm⟩
          cases k with
          | zero => simp at hk
          | succ k' =>
            injection hm with h1 h2
            omega
        · cases k with
          | zero => simp at hk
          | succ k' =>
            have harith : b + (k' + 1) = b + 1 + k' := by omega
            rw [harith] at h
            exact ih r' regs' (b + 1) k' (by simpa using hk) n
              (by rw [hph]; exact h)

/-! ### Registration preserves existing bindings -/

/-- Successful registration appends, so every existing binding survives
unchanged (the first binding for a key keeps winning lookups). -/
theorem routerMap_preserves (r : Router) (a : String) (h : Handler)
    (ps : List Processor) (r' : Router)
    (hmap : routerMap r a h ps = .ok r') (b : String) (rt : Route)
    (hb : lookupAction r b = some rt) : lookupAction r' b = some rt := by
  unfold routerMap at hmap
  split at hmap
  · exact absurd hmap (by simp)
  · injection hmap with hmap
    subst hmap
    unfold lookupAction at hb ⊢
    cases hf : r.actions.find? (fun e => e.1 = b) with
    | none => rw [hf] at hb; simp at hb
    | some x =>
      rw [hf] at hb
      simp only [List.find?_append, hf, Option.or_some]
      exact hb

/-- Installing a plugin's handlers preserves existing bindings. -/
theorem registerPluginHandlers_preserves (i : Nat) :
    ∀ (names : List String) (r r' : Router),
      registerPluginHandlers i names r = .ok r' →
      ∀ (b : String) (rt : Route), lookupAction r b = some rt →
        lookupAction r' b = some rt := by
  intro names
  induction names with
  | nil =>
    intro r r' hreg b rt hb
    simp only [registerPluginHandlers] at hreg
    injection hreg with hreg
    subst hreg
    exact hb
  | cons n ns ih =>
    intro r r' hreg b rt hb
    simp only [registerPluginHandlers] at hreg
    cases hm : routerMap r n (.pluginHandler i n) [] with
    | error e => rw [hm] at hreg; exact absurd hreg (by simp)
    | ok r₁ =>
      rw [hm] at hreg
      exact ih r₁ r' hreg b rt (routerMap_preserves r n _ [] r₁ hm b rt hb)

/-- Installing one plugin preserves existing bindings. -/
theorem installPlugin_preserves (i : Nat) (info : PluginRegInfo)
    (r : Router) (regs : Registries) (r' : Router) (regs' : Registries)
    (hins : installPlugin i info r regs = .ok (r', regs'))
    (b : String) (rt : Route) (hb : lookupAction r b = some rt) :
    lookupAction r' b = some rt := by
  unfold installPlugin at hins
  cases hh : registerPluginHandlers i info.handlers r with
  | error e => rw [hh] at hins; exact absurd hins (by simp)
  | ok r₁ =>
    rw [hh] at hins
    cases hl : registerPluginLambdas i info.lambdas regs.lambdas with
    | error e => rw [hl] at hins; exact absurd hins (by simp)
    | ok lambdas' =>
      rw [hl] at hins
      cases ht : registerPluginTimers i info.timers regs.timers with
      | error e => rw [ht] at hins; exact absurd hins (by simp)
      | ok timers' =>
        rw [ht] at hins
        injection hins with hins
        have hr : r₁ = r' := congrArg Prod.fst hins
        subst hr
        exact registerPluginHandlers_preserves i info.handlers r r₁ hh
          b rt hb

/-- The plugin init loop preserves every native binding. -/
theorem pluginPhase_preserves :
    ∀ (l : List (Option PluginRegInfo)) (r : Router) (regs : Registries)
      (b : Nat) (a : String) (rt : Route), lookupAction r a = some rt →
      lookupAction (pluginPhase r regs b l).2.1 a = some rt := by
  intro l
  induction l with
  | nil => intro r regs b a rt hb; exact hb
  | cons x rest ih =>
    intro r regs b a rt hb
    cases x with
    | none =>
      rcases hph : pluginPhase r regs (b + 1) rest with ⟨evs, r', regs', ok⟩
      have hrec := ih r regs (b + 1) a rt hb
      rw [hph] at hrec
      simp only [pluginPhase, hph]
      exact hrec
    | some info =>
      cases hins : installPlugin b info r regs with
      | error err => simp only [pluginPhase, hins]; exact hb
      | ok pr =>
        rcases pr with ⟨r₁, regs₁⟩
        rcases hph : pluginPhase r₁ regs₁ (b + 1) rest with
          ⟨evs, r', regs', ok⟩
        have hb₁ := installPlugin_preserves b info r regs r₁ regs₁ hins
          a rt hb
        have hrec := ih r₁ regs₁ (b + 1) a rt hb₁
        rw [hph] at hrec
        simp only [pluginPhase, hins, hph]
        exact hrec

/-- Action registration never touches the pattern-route table. -/
theorem routerMap_patterns (r : Router) (a : String) (h : Handler)
    (ps : List Processor) (r' : Router)
    (hmap : routerMap r a h ps = .ok r') : r'.patterns = r.patterns := by
  unfold routerMap at hmap
  split at hmap
  · exact absurd hmap (by simp)
  · injection hmap with hmap
    subst hmap
    rfl

/-- Installing a plugin's handlers never touches the pattern-route
table. -/
theorem registerPluginHandlers_patterns (i : Nat) :
    ∀ (names : List String) (r r' : Router),
      registerPluginHandlers i names r = .ok r' →
      r'.patterns = r.patterns := by
  intro names
  induction names with
  | nil =>
    intro r r' hreg
    simp only [registerPluginHandlers] at hreg
    injection hreg with hreg
    subst hreg
    rfl
  | cons n ns ih =>
    intro r r' hreg
    simp only [registerPluginHandlers] at hreg
    cases hm : routerMap r n (.pluginHandler i n) [] with
    | error e => rw [hm] at hreg; exact absurd hreg (by simp)
    | ok r₁ =>
      rw [hm] at hreg
      rw [ih r₁ r' hreg, routerMap_patterns r n _ [] r₁ hm]

/-- Installing one plugin never touches the pattern-route table. -/
theorem installPlugin_patterns (i : Nat) (info : PluginRegInfo)
    (r : Router) (regs : Registries) (r' : Router) (regs' : Registries)
    (hins : installPlugin i info r regs = .ok (r', regs')) :
    r'.patterns = r.patterns := by
  unfold installPlugin at hins
  cases hh : registerPluginHandlers i info.handlers r with
  | error e => rw [hh] at hins; exact absurd hins (by simp)
  | ok r₁ =>
    rw [hh] at hins
    cases hl : registerPluginLambdas i info.lambdas regs.lambdas with
    | error e => rw [hl] at hins; exact absurd hins (by simp)
    | ok lambdas' =>
      rw [hl] at hins
      cases ht : registerPluginTimers i info.timers regs.timers with
      | error e => rw [ht] at hins; exact absurd hins (by simp)
      | ok timers' =>
        rw [ht] at hins
        injection hins with hins
        have hr : r₁ = r' := congrArg Prod.fst hins
        subst hr
        exact registerPluginHandlers_patterns i info.handlers r r₁ hh

/-- The plugin init loop never touches the pattern-route table. -/
theorem pluginPhase_patterns :
    ∀ (l : List (Option PluginRegInfo)) (r : Router) (regs : Registries)
      (b : Nat), ((pluginPhase r regs b l).2.1).patterns = r.patterns := by
  intro l
  induction l with
  | nil => intro r regs b; rfl
  | cons x rest ih =>
    intro r regs b
    cases x with
    | none =>
      rcases hph : pluginPhase r regs (b + 1) rest with ⟨evs, r', regs', ok⟩
      have hrec := ih r regs (b + 1)
      rw [hph] at hrec
      simp only [pluginPhase, hph]
      exact hrec
    | some info =>
      cases hins : installPlugin b info r regs with
      | error err => simp only [pluginPhase, hins]
      | ok pr =>
        rcases pr with ⟨r₁, regs₁⟩
        rcases hph : pluginPhase r₁ regs₁ (b + 1) rest with
          ⟨evs, r', regs', ok⟩
        have hrec := ih r₁ regs₁ (b + 1)
        rw [hph] at hrec
        simp only [pluginPhase, hins, hph]
        rw [hrec, installPlugin_patterns b info r regs r₁ regs₁ hins]

/-- Pattern-route lookups are unchanged by the plugin init loop. -/
theorem pluginPhase_preservesPattern
    (l : List (Option PluginRegInfo)) (r : Router) (regs : Registries)
    (b : Nat) (m : HTTPMethod) (pat : String) :
    lookupPattern (pluginPhase r regs b l).2.1 m pat =
      lookupPattern r m pat := by
  unfold lookupPattern
  rw [pluginPhase_patterns l r regs b]

/-! ### Startup-trace facts -/

/-- All registration statements of `main.go` succeed: the built router. -/
theorem nativeRouterE_ok : nativeRouterE = .ok nativeRouter := by rfl

/-- The native registration events contain no `listen`. -/
theorem listen_not_in_regEvents : Event.listen ∉ regEvents := by decide

/-- If the registration phase reached `listen`, the listener start is the
final event and every native registration and plugin init precedes it. -/
theorem registrationPhase_listen (inp : Input) (cfg : Configuration)
    (h : Event.listen ∈ (registrationPhase inp cfg).trace) :
    ∃ pre, (registrationPhase inp cfg).trace = pre ++ [Event.listen] ∧
      (∀ it ∈ mainRegistrations, regEventOf it ∈ pre) ∧
      (∀ i, i < cfg.plugins.length →
        Event.pluginInit i ∈ pre ∨ Event.pluginDisabled i ∈ pre) ∧
      Event.listen ∉ pre := by
  cases hao : assetStoreOk cfg inp.s3Ok with
  | false => simp [registrationPhase, hao] at h
  | true =>
    rcases hph : pluginPhase nativeRouter emptyRegistries 0 cfg.plugins
      with ⟨evs, rF, regsF, ok⟩
    have hnol := pluginPhase_no_listen cfg.plugins nativeRouter
      emptyRegistries 0
    rw [hph] at hnol
    cases ok with
    | false =>
      exfalso
      simp only [registrationPhase, hao, nativeRouterE_ok, hph, if_true,
        Bool.false_eq_true, if_false, List.mem_append] at h
      rcases h with h | h
      · exact listen_not_in_regEvents h
      · exact hnol h
    | true =>
      simp only [registrationPhase, hao, nativeRouterE_ok, hph, if_true]
      refine ⟨regEvents ++ evs ++ [Event.cronStart], ?_, ?_, ?_, ?_⟩
      · simp
      · intro it hit
        have hm : regEventOf it ∈ regEvents := List.mem_map_of_mem _ hit
        simp [List.mem_append, hm]
      · intro i hi
        have hcov := pluginPhase_covers cfg.plugins nativeRouter
          emptyRegistries 0 (by rw [hph]) i hi
        rw [hph] at hcov
        simp only [Nat.zero_add] at hcov
        rcases hcov with hm | hm
        · left; simp [List.mem_append, hm]
        · right; simp [List.mem_append, hm]
      · intro hmem
        simp only [List.mem_append, List.mem_cons, List.not_mem_nil,
          or_false] at hmem
        rcases hmem with (hmem | hmem) | hmem
        · exact listen_not_in_regEvents hmem
        · exact hnol hmem
        · simp at hmem

/-- `afterRead` version of the listener-last property. -/
theorem afterRead_listen (inp : Input)
    (h : Event.listen ∈ (afterRead inp).trace) :
    ∃ pre, (afterRead inp).trace = pre ++ [Event.listen] ∧
      (∀ it ∈ mainRegistrations, regEventOf it ∈ pre) ∧
      (∀ i, i < pluginCount inp →
        Event.pluginInit i ∈ pre ∨ Event.pluginDisabled i ∈ pre) ∧
      Event.listen ∉ pre := by
  cases hc : inp.cfgResult with
  | error msg => simp [afterRead, hc] at h
  | ok cfg =>
    have hpc : pluginCount inp = cfg.plugins.length := by
      simp [pluginCount, hc]
    rw [hpc]
    simp only [afterRead, hc] at h ⊢
    by_cases hs : cfg.subscriptionEnabled = true
    · rw [if_pos hs] at h ⊢
      by_cases henv : cfg.apnsEnv = "sandbox" ∨ cfg.apnsEnv = "production"
      · rw [if_pos henv] at h ⊢
        by_cases hpk : inp.pushOk = true
        · rw [if_pos hpk] at h ⊢
          exact registrationPhase_listen inp cfg h
        · rw [if_neg hpk] at h
          simp at h
      · rw [if_neg henv] at h
        simp at h
    · rw [if_neg hs] at h ⊢
      exact registrationPhase_listen inp cfg h

/-- `mainWithPath` version of the listener-last property. -/
theorem mainWithPath_listen (inp : Input) (path : String)
    (h : Event.listen ∈ (mainWithPath inp path).trace) :
    ∃ pre, (mainWithPath inp path).trace = pre ++ [Event.listen] ∧
      (∀ it ∈ mainRegistrations, regEventOf it ∈ pre) ∧
      (∀ i, i < pluginCount inp →
        Event.pluginInit i ∈ pre ∨ Event.pluginDisabled i ∈ pre) ∧
      Event.listen ∉ pre := by
  simp only [mainWithPath, List.mem_cons] at h
  rcases h with hbad | h
  · exact absurd hbad (by simp)
  · rcases afterRead_listen inp h with ⟨pre, h3, h4, h5, h6⟩
    refine ⟨.readConfig path :: pre, ?_, ?_, ?_, ?_⟩
    · simp only [mainWithPath, h3]
      rfl
    · intro it hit
      exact List.mem_cons_of_mem _ (h4 it hit)
    · intro i hi
      rcases h5 i hi with hm | hm
      · exact Or.inl (List.mem_cons_of_mem _ hm)
      · exact Or.inr (List.mem_cons_of_mem _ hm)
    · intro hmem
      rcases List.mem_cons.mp hmem with hbad | hmem
      · exact absurd hbad (by simp)
      · exact h6 hmem

/-- C4: The HTTP listener is started only after every registration
completes: whenever the run reaches `ListenAndServe`, it is the final
startup event, every native route registration precedes it, and every
configured plugin went through its `Init` (installed or marked disabled)
before it. -/
theorem listenerStartsAfterRegistration (inp : Input)
    (hlisten : Event.listen ∈ (mainRun inp).trace) :
    ∃ pre, (mainRun inp).trace = pre ++ [Event.listen] ∧
      (∀ it ∈ mainRegistrations, regEventOf it ∈ pre) ∧
      (∀ i, i < pluginCount inp →
        Event.pluginInit i ∈ pre ∨ Event.pluginDisabled i ∈ pre) ∧
      Event.listen ∉ pre := by
  unfold mainRun at hlisten ⊢
  by_cases h1 : inp.args.length < 2
  · rw [if_pos h1] at hlisten ⊢
    by_cases h2 : inp.odConfig = ""
    · rw [if_pos h2] at hlisten
      simp at hlisten
    · rw [if_neg h2] at hlisten ⊢
      exact mainWithPath_listen inp inp.odConfig hlisten
  · rw [if_neg h1] at hlisten ⊢
    exact mainWithPath_listen inp (inp.args.getD 1 "") hlisten

/-- Witness for C4: on a healthy startup with two plugins (one failing its
handshake), the listener is reached and everything precedes it. -/
theorem listenerStartsAfterRegistration_check :
    Event.listen ∈ (mainRun inpOkW).trace ∧
    (∃ pre, (mainRun inpOkW).trace = pre ++ [Event.listen] ∧
      (∀ it ∈ mainRegistrations, regEventOf it ∈ pre) ∧
      (∀ i, i < pluginCount inpOkW →
        Event.pluginInit i ∈ pre ∨ Event.pluginDisabled i ∈ pre) ∧
      Event.listen ∉ pre) :=
  ⟨by decide, listenerStartsAfterRegistration inpOkW (by decide)⟩

/-- With a failing asset store the registration phase panics before any
registration. -/
theorem registrationPhase_panic (inp : Input) (cfg : Configuration)
    (hao : assetStoreOk cfg inp.s3Ok = false) :
    (∃ e ∈ (registrationPhase inp cfg).trace, isErrorEvent e = true) ∧
    (∀ e ∈ (registrationPhase inp cfg).trace,
      isRegistrationEvent e = false) ∧
    Event.listen ∉ (registrationPhase inp cfg).trace := by
  simp only [registrationPhase, hao, Bool.false_eq_true, if_false]
  refine ⟨⟨.assetPanic, by simp, rfl⟩, ?_, by simp⟩
  intro e he
  simp at he
  subst he
  rfl

/-- Under any of the three configuration-error causes, `afterRead` stops
with an error report, performs no registration, and never listens. -/
theorem afterRead_halts (inp : Input)
    (hbad :
      (∃ msg, inp.cfgResult = .error msg) ∨
      (∀ cfg, inp.cfgResult = .ok cfg →
        cfg.assetStoreImpl ≠ "fs" ∧ cfg.assetStoreImpl ≠ "s3") ∨
      (∀ cfg, inp.cfgResult = .ok cfg →
        cfg.subscriptionEnabled = true ∧
        cfg.apnsEnv ≠ "sandbox" ∧ cfg.apnsEnv ≠ "production")) :
    (∃ e ∈ (afterRead inp).trace, isErrorEvent e = true) ∧
    (∀ e ∈ (afterRead inp).trace, isRegistrationEvent e = false) ∧
    Event.listen ∉ (afterRead inp).trace := by
  cases hc : inp.cfgResult with
  | error msg =>
    simp only [afterRead, hc]
    refine ⟨⟨.configError msg, by simp, rfl⟩, ?_, by simp⟩
    intro e he
    simp at he
    subst he
    rfl
  | ok cfg =>
    rcases hbad with ⟨msg, hmsg⟩ | hb | hb
    · rw [hc] at hmsg
      exact absurd hmsg (by simp)
    · obtain ⟨ha1, ha2⟩ := hb cfg hc
      have hao : assetStoreOk cfg inp.s3Ok = false := by
        unfold assetStoreOk
        split
        next heq => exact absurd heq ha1
        next heq => exact absurd heq ha2
        next => rfl
      simp only [afterRead, hc]
      by_cases hs : cfg.subscriptionEnabled = true
      · rw [if_pos hs]
        by_cases henv : cfg.apnsEnv = "sandbox" ∨ cfg.apnsEnv = "production"
        · rw [if_pos henv]
          by_cases hpk : inp.pushOk = true
          · rw [if_pos hpk]
            exact registrationPhase_panic inp cfg hao
          · rw [if_neg hpk]
            refine ⟨⟨.fatalPush, by simp, rfl⟩, ?_, by simp⟩
            intro e he
            simp at he
            subst he
            rfl
        · rw [if_neg henv]
          refine ⟨⟨.apnsEnvError, by simp, rfl⟩, ?_, by simp⟩
          intro e he
          simp at he
          subst he
          rfl
      · rw [if_neg hs]
        exact registrationPhase_panic inp cfg hao
    · obtain ⟨hse, he1, he2⟩ := hb cfg hc
      simp only [afterRead, hc]
      rw [if_pos hse]
      have henv : ¬(cfg.apnsEnv = "sandbox" ∨ cfg.apnsEnv = "production") := by
        rintro (hx | hx)
        · exact he1 hx
        · exact he2 hx
      rw [if_neg henv]
      refine ⟨⟨.apnsEnvError, by simp, rfl⟩, ?_, by simp⟩
      intro e he
      simp at he
      subst he
      rfl

/-- `mainWithPath` version of the halt property. -/
theorem mainWithPath_halts (inp : Input) (path : String)
    (hbad :
      (∃ msg, inp.cfgResult = .error msg) ∨
      (∀ cfg, inp.cfgResult = .ok cfg →
        cfg.assetStoreImpl ≠ "fs" ∧ cfg.assetStoreImpl ≠ "s3") ∨
      (∀ cfg, inp.cfgResult = .ok cfg →
        cfg.subscriptionEnabled = true ∧
        cfg.apnsEnv ≠ "sandbox" ∧ cfg.apnsEnv ≠ "production")) :
    (∃ e ∈ (mainWithPath inp path).trace, isErrorEvent e = true) ∧
    (∀ e ∈ (mainWithPath inp path).trace,
      isRegistrationEvent e = false) ∧
    Event.listen ∉ (mainWithPath inp path).trace := by
  obtain ⟨⟨e, he, hee⟩, hreg, hlis⟩ := afterRead_halts inp hbad
  refine ⟨⟨e, List.mem_cons_of_mem _ he, hee⟩, ?_, ?_⟩
  · intro e' he'
    rcases List.mem_cons.mp he' with rfl | he'
    · rfl
    · exact hreg e' he'
  · intro hmem
    rcases List.mem_cons.mp hmem with hbad' | hmem
    · exact absurd hbad' (by simp)
    · exact hlis hmem

/-- C7: A configuration error — unreadable config file, invalid
asset-store implementation name, or invalid `apns.env` while subscriptions
are enabled — halts startup: an error is reported, and the run never
reaches route registration (no registration event) or the HTTP listener
(no `listen` event). -/
theorem configErrorHaltsStartup (inp : Input)
    (hpath : 2 ≤ inp.args.length ∨ inp.odConfig ≠ "")
    (hbad :
      (∃ msg, inp.cfgResult = .error msg) ∨
      (∀ cfg, inp.cfgResult = .ok cfg →
        cfg.assetStoreImpl ≠ "fs" ∧ cfg.assetStoreImpl ≠ "s3") ∨
      (∀ cfg, inp.cfgResult = .ok cfg →
        cfg.subscriptionEnabled = true ∧
        cfg.apnsEnv ≠ "sandbox" ∧ cfg.apnsEnv ≠ "production")) :
    (∃ e ∈ (mainRun inp).trace, isErrorEvent e = true) ∧
    (∀ e ∈ (mainRun inp).trace, isRegistrationEvent e = false) ∧
    Event.listen ∉ (mainRun inp).trace := by
  unfold mainRun
  by_cases h1 : inp.args.length < 2
  · have h2 : ¬(inp.odConfig = "") := by
      rcases hpath with hp | hp
      · omega
      · exact hp
    rw [if_pos h1, if_neg h2]
    exact mainWithPath_halts inp inp.odConfig hbad
  · rw [if_neg h1]
    exact mainWithPath_halts inp (inp.args.getD 1 "") hbad

/-- Witness for C7: an unreadable config file reports the error and the
run performs no registration and never listens. -/
theorem configErrorHaltsStartup_check :
    2 ≤ inpBadCfgW.args.length ∧
    inpBadCfgW.cfgResult = .error "open missing.ini: no such file" ∧
    ((∃ e ∈ (mainRun inpBadCfgW).trace, isErrorEvent e = true) ∧
     (∀ e ∈ (mainRun inpBadCfgW).trace, isRegistrationEvent e = false) ∧
     Event.listen ∉ (mainRun inpBadCfgW).trace) :=
  ⟨by decide, rfl,
    configErrorHaltsStartup inpBadCfgW (Or.inl (by decide))
      (Or.inl ⟨"open missing.ini: no such file", rfl⟩)⟩

/-- C8: With no command-line argument the config path is taken from
`OD_CONFIG`; if that is also empty the run prints the usage line and
returns normally (the usage exit is not an error report); when an argument
is given it is used as the config path (the path recorded in the
`readConfig` event). -/
theorem configPathResolution (inp : Input) :
    (inp.args.length < 2 ∧ inp.odConfig = "" →
      (mainRun inp).trace = [Event.usageExit] ∧
      isErrorEvent Event.usageExit = false) ∧
    (inp.args.length < 2 ∧ inp.odConfig ≠ "" →
      (mainRun inp).trace =
        Event.readConfig inp.odConfig :: (afterRead inp).trace) ∧
    (2 ≤ inp.args.length →
      (mainRun inp).trace =
        Event.readConfig (inp.args.getD 1 "") :: (afterRead inp).trace) := by
  refine ⟨?_, ?_, ?_⟩
  · rintro ⟨h1, h2⟩
    exact ⟨by simp [mainRun, h1, h2], rfl⟩
  · rintro ⟨h1, h2⟩
    simp [mainRun, mainWithPath, h1, h2]
  · intro h1
    have h2 : ¬(inp.args.length < 2) := by omega
    simp [mainRun, mainWithPath, h2]

/-- Witness for C8: the three invocation shapes at concrete inputs. -/
theorem configPathResolution_check :
    ((mainRun inpUsageW).trace = [Event.usageExit] ∧
      isErrorEvent Event.usageExit = false) ∧
    ((mainRun inpEnvW).trace =
      Event.readConfig inpEnvW.odConfig :: (afterRead inpEnvW).trace) ∧
    ((mainRun inpOkW).trace =
      Event.readConfig (inpOkW.args.getD 1 "") ::
        (afterRead inpOkW).trace) :=
  ⟨(configPathResolution inpUsageW).1 ⟨by decide, by decide⟩,
   (configPathResolution inpEnvW).2.1 ⟨by decide, by decide⟩,
   (configPathResolution inpOkW).2.2 (by decide)⟩

/-- The native registration events contain no plugin-register event. -/
theorem pluginRegister_not_in_regEvents (j : Nat) (n : String) :
    Event.pluginRegister j n ∉ regEvents := by
  intro h
  simp only [regEvents, List.mem_map] at h
  rcases h with ⟨it, _, hit⟩
  cases it with
  | action a hh ps => simp [regEventOf] at hit
  | pattern m pat hh ps => simp [regEventOf] at hit

/-- Registration-phase version of the failed-plugin property. -/
theorem registrationPhase_failedPlugin (inp : Input) (cfg : Configuration)
    (k : Nat) (hao : assetStoreOk cfg inp.s3Ok = true)
    (hk : cfg.plugins.get? k = some none)
    (hdup : Event.duplicateFatal ∉ (registrationPhase inp cfg).trace) :
    Event.listen ∈ (registrationPhase inp cfg).trace ∧
    Event.pluginDisabled k ∈ (registrationPhase inp cfg).trace ∧
    (∀ n, Event.pluginRegister k n ∉ (registrationPhase inp cfg).trace) ∧
    (∀ a rt, lookupAction nativeRouter a = some rt →
      lookupAction (registrationPhase inp cfg).router a = some rt) ∧
    (∀ m pat rt, lookupPattern nativeRouter m pat = some rt →
      lookupPattern (registrationPhase inp cfg).router m pat = some rt) := by
  rcases hph : pluginPhase nativeRouter emptyRegistries 0 cfg.plugins with
    ⟨evs, rF, regsF, ok⟩
  simp only [registrationPhase, hao, nativeRouterE_ok, hph, if_true]
    at hdup ⊢
  cases ok with
  | false =>
    exfalso
    have hfat := pluginPhase_fatal_of_not_ok cfg.plugins nativeRouter
      emptyRegistries 0
    rw [hph] at hfat
    simp only [Bool.false_eq_true, if_false, List.mem_append] at hdup
    exact hdup (Or.inr (hfat rfl))
  | true =>
    refine ⟨by simp, ?_, ?_, ?_, ?_⟩
    · have hd := pluginPhase_disabled_mem cfg.plugins nativeRouter
        emptyRegistries 0 (by rw [hph]) k hk
      rw [hph] at hd
      simp only [Nat.zero_add] at hd
      simp [List.mem_append, hd]
    · intro n hmem
      have hskip := pluginPhase_register_skip cfg.plugins nativeRouter
        emptyRegistries 0 k hk n
      rw [hph] at hskip
      simp only [Nat.zero_add] at hskip
      simp only [if_true, List.mem_append, List.mem_cons,
        List.not_mem_nil, or_false] at hmem
      rcases hmem with (hmem | hmem) | hmem | hmem
      · exact pluginRegister_not_in_regEvents k n hmem
      · exact hskip hmem
      · simp at hmem
      · simp at hmem
    · intro a rt hb
      have hpres := pluginPhase_preserves cfg.plugins nativeRouter
        emptyRegistries 0 a rt hb
      rw [hph] at hpres
      exact hpres
    · intro m pat rt hb
      have hpat := pluginPhase_preservesPattern cfg.plugins nativeRouter
        emptyRegistries 0 m pat
      rw [hph] at hpat
      have hpat' : lookupPattern rF m pat = lookupPattern nativeRouter m pat :=
        hpat
      simp only [if_true]
      rw [hpat']
      exact hb

/-- `afterRead` version of the failed-plugin property. -/
theorem afterRead_failedPlugin (inp : Input) (cfg : Configuration)
    (k : Nat) (hcfg : inp.cfgResult = .ok cfg)
    (hok : startupOk inp = true)
    (hk : cfg.plugins.get? k = some none)
    (hdup : Event.duplicateFatal ∉ (afterRead inp).trace) :
    Event.listen ∈ (afterRead inp).trace ∧
    Event.pluginDisabled k ∈ (afterRead inp).trace ∧
    (∀ n, Event.pluginRegister k n ∉ (afterRead inp).trace) ∧
    (∀ a rt, lookupAction nativeRouter a = some rt →
      lookupAction (afterRead inp).router a = some rt) ∧
    (∀ m pat rt, lookupPattern nativeRouter m pat = some rt →
      lookupPattern (afterRead inp).router m pat = some rt) := by
  simp only [startupOk, hcfg, Bool.and_eq_true] at hok
  have hao : assetStoreOk cfg inp.s3Ok = true := hok.2.2
  have hAR : afterRead inp = registrationPhase inp cfg := by
    simp only [afterRead, hcfg]
    by_cases hs : cfg.subscriptionEnabled = true
    · rw [if_pos hs]
      have hsub := hok.2.1
      rw [if_pos hs] at hsub
      simp only [Bool.and_eq_true, Bool.or_eq_true, beq_iff_eq] at hsub
      rw [if_pos hsub.1, if_pos hsub.2]
    · rw [if_neg hs]
  rw [hAR] at hdup ⊢
  exact registrationPhase_failedPlugin inp cfg k hao hk hdup

/-- C6: when startup is otherwise healthy (valid config, no duplicate
registration among the other plugins), a plugin whose process fails its
init handshake is marked disabled and contributes no registration, yet
the server still reaches the listener and every native route binding —
action routes and pattern routes alike — is served unchanged by the final
router. -/
theorem failedPluginSkippedServerServes (inp : Input)
    (cfg : Configuration) (k : Nat)
    (hcfg : inp.cfgResult = .ok cfg)
    (hok : startupOk inp = true)
    (hk : cfg.plugins.get? k = some none)
    (hdup : Event.duplicateFatal ∉ (mainRun inp).trace) :
    Event.listen ∈ (mainRun inp).trace ∧
    Event.pluginDisabled k ∈ (mainRun inp).trace ∧
    (∀ n, Event.pluginRegister k n ∉ (mainRun inp).trace) ∧
    (∀ a rt, lookupAction nativeRouter a = some rt →
      lookupAction (mainRun inp).router a = some rt) ∧
    (∀ m pat rt, lookupPattern nativeRouter m pat = some rt →
      lookupPattern (mainRun inp).router m pat = some rt) := by
  have hpath : ∃ p, mainRun inp = mainWithPath inp p := by
    unfold mainRun
    by_cases h1 : inp.args.length < 2
    · rw [if_pos h1]
      have hX := hok
      simp only [startupOk, Bool.and_eq_true, Bool.or_eq_true,
        decide_eq_true_eq, Bool.not_eq_true', beq_eq_false_iff_ne] at hX
      have h2 : ¬(inp.odConfig = "") := by
        rcases hX.1 with hp | hp
        · omega
        · exact hp
      rw [if_neg h2]
      exact ⟨_, rfl⟩
    · rw [if_neg h1]
      exact ⟨_, rfl⟩
  rcases hpath with ⟨p, hp⟩
  rw [hp] at hdup ⊢
  have hdup' : Event.duplicateFatal ∉ (afterRead inp).trace := by
    intro hx
    exact hdup (List.mem_cons_of_mem _ hx)
  obtain ⟨hl, hd, hskip, hpres, hpresPat⟩ :=
    afterRead_failedPlugin inp cfg k hcfg hok hk hdup'
  refine ⟨List.mem_cons_of_mem _ hl, List.mem_cons_of_mem _ hd, ?_, ?_, ?_⟩
  · intro n hmem
    rcases List.mem_cons.mp hmem with hbad | hmem
    · exact absurd hbad (by simp)
    · exact hskip n hmem
  · intro a rt hb
    exact hpres a rt hb
  · intro m pat rt hb
    exact hpresPat m pat rt hb

/-- Witness for C6: with `cfgOkW`, whose first plugin fails its handshake,
the server reaches the listener, marks plugin 0 disabled, installs nothing
for it, and serves all native routes. -/
theorem failedPluginSkippedServerServes_check :
    inpOkW.cfgResult = .ok cfgOkW ∧
    startupOk inpOkW = true ∧
    cfgOkW.plugins.get? 0 = some none ∧
    Event.duplicateFatal ∉ (mainRun inpOkW).trace ∧
    (Event.listen ∈ (mainRun inpOkW).trace ∧
     Event.pluginDisabled 0 ∈ (mainRun inpOkW).trace ∧
     (∀ n, Event.pluginRegister 0 n ∉ (mainRun inpOkW).trace) ∧
     (∀ a rt, lookupAction nativeRouter a = some rt →
       lookupAction (mainRun inpOkW).router a = some rt) ∧
     (∀ m pat rt, lookupPattern nativeRouter m pat = some rt →
       lookupPattern (mainRun inpOkW).router m pat = some rt)) :=
  ⟨rfl, by decide, by decide, by decide,
    failedPluginSkippedServerServes inpOkW cfgOkW 0 rfl (by decide)
      (by decide) (by decide)⟩

/-! ### Logging-middleware lemmas -/

/-- The logger forwards every response-writer call, unchanged and in
order, to the underlying writer. -/
theorem runOps_uTrace : ∀ (ops : List WOp) (l : ResponseLogger),
    (runOps l ops).uTrace = l.uTrace ++ ops := by
  intro ops
  induction ops with
  | nil => intro l; simp [runOps]
  | cons op rest ih =>
    intro l
    cases op with
    | write bs => simp [runOps, ih, rlWrite]
    | writeHeader s => simp [runOps, ih, rlWriteHeader]

/-- Once set, the recorded status survives any run of further `Write`
calls. -/
theorem runOps_status_stable : ∀ (ops : List WOp) (l : ResponseLogger),
    (∀ op ∈ ops, notWriteHeaderOp op = true) → l.status ≠ 0 →
    (runOps l ops).status = l.status := by
  intro ops
  induction ops with
  | nil => intro l _ _; rfl
  | cons op rest ih =>
    intro l hall hs
    cases op with
    | write bs =>
      have hkeep : (rlWrite l bs).status = l.status := by
        simp [rlWrite, if_neg hs]
      simp only [runOps]
      rw [ih (rlWrite l bs)
        (fun op h => hall op (List.mem_cons_of_mem _ h))
        (by rw [hkeep]; exact hs), hkeep]
    | writeHeader s =>
      exact absurd (hall _ (List.mem_cons_self _ _))
        (by simp [notWriteHeaderOp])

/-- A handler that writes a body without ever calling `WriteHeader` gets
its status recorded as 200. -/
theorem runOps_status_200 : ∀ (ops : List WOp) (l : ResponseLogger),
    l.status = 0 → (∃ op ∈ ops, isWriteOp op = true) →
    (∀ op ∈ ops, notWriteHeaderOp op = true) →
    (runOps l ops).status = 200 := by
  intro ops
  induction ops with
  | nil =>
    intro l _ hex _
    rcases hex with ⟨op, h, _⟩
    simp at h
  | cons op rest ih =>
    intro l hs hex hall
    cases op with
    | write bs =>
      have h200 : (rlWrite l bs).status = 200 := by simp [rlWrite, hs]
      simp only [runOps]
      rw [runOps_status_stable rest (rlWrite l bs)
        (fun op h => hall op (List.mem_cons_of_mem _ h))
        (by rw [h200]; omega)]
      exact h200
    | writeHeader s =>
      exact absurd (hall _ (List.mem_cons_self _ _))
        (by simp [notWriteHeaderOp])

/-- C10: the logging middleware is observationally transparent: the inner
handler receives the request body byte-for-byte as sent (the body is read
in full for logging and then restored), every `Write` / `WriteHeader` call
the handler makes is forwarded unchanged and in order to the underlying
response writer, and when the handler writes a body without calling
`WriteHeader` the status is recorded as 200. -/
theorem logMiddlewareTransparent (req : Request) (ops : List WOp) :
    (middlewareRequest req).body = req.body ∧
    (runOps initLogger ops).uTrace = ops ∧
    (ops.any isWriteOp = true → ops.all notWriteHeaderOp = true →
      (runOps initLogger ops).status = 200) := by
  refine ⟨rfl, ?_, ?_⟩
  · rw [runOps_uTrace]
    rfl
  · intro hw hall
    apply runOps_status_200 ops initLogger rfl
    · rcases List.any_eq_true.mp hw with ⟨op, hmem, hop⟩
      exact ⟨op, hmem, hop⟩
    · intro op h
      exact List.all_eq_true.mp hall op h

/-- Witness for C10: a concrete request body and a handler that writes one
chunk without calling `WriteHeader`. -/
theorem logMiddlewareTransparent_check :
    (middlewareRequest ⟨[1, 2, 3]⟩).body = [1, 2, 3] ∧
    (runOps initLogger [WOp.write [7, 8]]).uTrace = [WOp.write [7, 8]] ∧
    [WOp.write [7, 8]].any isWriteOp = true ∧
    [WOp.write [7, 8]].all notWriteHeaderOp = true ∧
    (runOps initLogger [WOp.write [7, 8]]).status = 200 :=
  ⟨(logMiddlewareTransparent ⟨[1, 2, 3]⟩ [WOp.write [7, 8]]).1,
   (logMiddlewareTransparent ⟨[1, 2, 3]⟩ [WOp.write [7, 8]]).2.1,
   by decide, by decide,
   (logMiddlewareTransparent ⟨[1, 2, 3]⟩ [WOp.write [7, 8]]).2.2
     (by decide) (by decide)⟩

end Skygear
